import Mathlib

/-!
Verification of the foreground event renderer of the fullcalendar repository
(`src/packages/core/src/component/renderers/FgEventRenderer.ts`) and of the
common vdom bootstrap (`src/packages/common/src/vdom.ts`), as a shallow
embedding in Lean 4.

Modelling conventions:
* `DateMarker` (a JS `Date`) is its millisecond value, an `Int`; `valueOf`
  is the identity.
* Nullable / optional JS values become `Option`.
* DOM elements are records of the pieces the renderer touches: the class
  list and the inline `style.visibility` string.  `classList.add` is a
  set-insert, `classList.remove` deletes the token.
* Functions external to the excerpt (`dateEnv.format`, `dateEnv.formatRange`,
  `htmlToElements`, `filterSegsViaEls`, `compareByFieldSpecs`, the abstract
  `renderSegHtml` of a concrete subclass) are parameters of the embedded
  functions, so every theorem quantifies over them.
* JS code that dereferences a possibly-null value without a check is
  embedded as an `Option`-returning function; `none` is the thrown
  `TypeError`.
* A JS string is falsy exactly when it is `""`; an optional string argument
  that may also be `undefined` keeps `""` as its only falsy value, which is
  indistinguishable from `undefined` in every `if (x)` test the code makes.
-/

/-- Millisecond value of a JS `Date` (the `DateMarker` type of the source). -/
abbrev DateMarker := Int

/-- The inline style pieces of a DOM element the renderer touches. -/
structure ElStyle where
  visibility : String
  deriving DecidableEq, Repr

/-- A DOM element, reduced to the pieces the renderer reads or writes. -/
structure El where
  classList : List String
  style : ElStyle
  deriving DecidableEq, Repr

/-- `DOMTokenList.add`: appends the token unless already present. -/
def El.addClass (el : El) (c : String) : El :=
  if c ∈ el.classList then el else { el with classList := el.classList ++ [c] }

/-- `DOMTokenList.remove`: deletes every occurrence of the token. -/
def El.removeClass (el : El) (c : String) : El :=
  { el with classList := el.classList.filter (fun x => x ≠ c) }

/-- `el.style.visibility = v`. -/
def El.setVisibility (el : El) (v : String) : El :=
  { el with style := { el.style with visibility := v } }

/-- A date range with possibly-open endpoints (`range` of an event instance). -/
structure DateRange where
  start : Option DateMarker
  «end» : Option DateMarker
  deriving DecidableEq, Repr

/-- The part of an `EventInstance` the renderer uses. -/
structure EventInstance where
  instanceId : String
  range : DateRange
  forcedStartTzo : Option Int
  forcedEndTzo : Option Int
  deriving DecidableEq, Repr

/-- The part of an `EventDef` the renderer uses. -/
structure EventDef where
  publicId : String
  allDay : Bool
  hasEnd : Bool
  deriving DecidableEq, Repr

/-- The part of the `EventUi` record the renderer uses. -/
structure EventUi where
  classNames : List String
  deriving DecidableEq, Repr

/-- An `EventRenderRange`: definition, optional instance and ui settings. -/
structure EventRenderRange where
  «def» : EventDef
  «instance» : Option EventInstance
  ui : EventUi
  deriving DecidableEq, Repr

/-- A rendered segment (`Seg` of `DateComponent`), with its optional DOM
element and the start / end truncation flags. -/
structure Seg where
  eventRange : EventRenderRange
  el : Option El
  isStart : Bool
  isEnd : Bool
  deriving DecidableEq, Repr

/-- A date formatter is opaque to the excerpt; it is only handed to the
date environment. -/
abbrev DateFormatter := String

/-- The date environment, abstracted to the two formatting entry points the
renderer calls.  `format` receives the start marker and the forced start
timezone offset; `formatRange` receives both markers and both offsets. -/
structure DateEnv where
  format : Option DateMarker → DateFormatter → Option Int → String
  formatRange : Option DateMarker → Option DateMarker → DateFormatter →
    Option Int → Option Int → String

/-- `FgEventRenderer._getTimeText`.  `eventTimeFormat`, `displayEventTime`
and `displayEventEnd` are the computed options of the renderer instance;
`formatter` and `displayEnd` default to the computed options when absent. -/
def _getTimeText (dateEnv : DateEnv) (eventTimeFormat : DateFormatter)
    (displayEventTime displayEventEnd : Bool)
    (start «end» : Option DateMarker) (allDay : Bool)
    (formatter : Option DateFormatter) (displayEnd : Option Bool)
    (forcedStartTzo forcedEndTzo : Option Int) : String :=
  let formatter := formatter.getD eventTimeFormat
  let displayEnd := displayEnd.getD displayEventEnd
  if displayEventTime && !allDay then
    if displayEnd && «end».isSome then
      dateEnv.formatRange start «end» formatter forcedStartTzo forcedEndTzo
    else
      dateEnv.format start formatter forcedStartTzo
  else
    ""

/-- `FgEventRenderer.getTimeText`.  Dereferences `eventRange.instance`
without a null check, hence `Option`-valued: `none` is the thrown
`TypeError` when the instance is absent. -/
def getTimeText (dateEnv : DateEnv) (eventTimeFormat : DateFormatter)
    (displayEventTime displayEventEnd : Bool)
    (eventRange : EventRenderRange)
    (formatter : Option DateFormatter) (displayEnd : Option Bool) :
    Option String :=
  eventRange.«instance».map fun inst =>
    _getTimeText dateEnv eventTimeFormat displayEventTime displayEventEnd
      inst.range.start
      (if eventRange.«def».hasEnd then inst.range.«end» else none)
      eventRange.«def».allDay
      formatter displayEnd
      inst.forcedStartTzo inst.forcedEndTzo

/-- `MirrorInfo`: truthiness of the object plus the two flags
`getSegClasses` reads. -/
structure MirrorInfo where
  isDragging : Bool
  isResizing : Bool
  deriving DecidableEq, Repr

/-- `FgEventRenderer.getSegClasses`. -/
def getSegClasses (seg : Seg) (isDraggable isResizable : Bool)
    (mirrorInfo : Option MirrorInfo) : List String :=
  let classes :=
    ["fc-event",
     if seg.isStart then ("fc-start") else ("fc-not-start"),
     if seg.isEnd then ("fc-end") else ("fc-not-end")]
      ++ seg.eventRange.ui.classNames
  let classes := if isDraggable then classes ++ ["fc-draggable"] else classes
  let classes := if isResizable then classes ++ ["fc-resizable"] else classes
  match mirrorInfo with
  | none => classes
  | some mi =>
    let classes := classes ++ ["fc-mirror"]
    let classes := if mi.isDragging then classes ++ ["fc-dragging"] else classes
    if mi.isResizing then classes ++ ["fc-resizing"] else classes

/-- The index-paired element assignment inside `renderSegEls`:
`htmlToElements(html).forEach((el, i) => { let seg = segs[i]; if (el) seg.el = el })`.
Iteration is over the element list; a null element is skipped; a non-null
element beyond the segment list would be written onto an `undefined`
segment, a `TypeError`, hence `none`. -/
def assignEls : List Seg → List (Option El) → Option (List Seg)
  | segs, [] => some segs
  | [], none :: els => assignEls [] els
  | [], some _ :: _ => none
  | _seg :: segs, none :: els => (assignEls segs els).map (_seg :: ·)
  | _seg :: segs, some el :: els =>
      (assignEls segs els).map ({ _seg with el := some el } :: ·)

/-- `FgEventRenderer.renderSegEls`.  `renderSegHtml` is the abstract method
of the concrete subclass, `htmlToElements` the DOM utility, and
`filterSegsViaEls` the event-rendering utility (all outside the excerpt). -/
def renderSegEls (renderSegHtml : Seg → String)
    (htmlToElements : String → List (Option El))
    (filterSegsViaEls : List Seg → List Seg)
    (segs : List Seg) : Option (List Seg) :=
  if segs.length ≠ 0 then
    let html := segs.foldl (fun acc s => acc ++ renderSegHtml s) ""
    (assignEls segs (htmlToElements html)).map filterSegsViaEls
  else
    some segs

/-- The `for (let seg of segs)` loop of the hidden-instance subrenderers,
setting `style.visibility` to `v` on the segments whose instance id is
hidden.  The loop dereferences `seg.eventRange.instance` and, for a hidden
id, `seg.el` without null checks, hence `Option`-valued. -/
def hiddenInstancesLoop (isHidden : String → Bool) (v : String) :
    List Seg → Option (List Seg)
  | [] => some []
  | seg :: rest =>
    match seg.eventRange.«instance» with
    | none => none
    | some inst =>
      if isHidden inst.instanceId then
        match seg.el with
        | none => none
        | some el =>
          (hiddenInstancesLoop isHidden v rest).map
            ({ seg with el := some (el.setVisibility v) } :: ·)
      else
        (hiddenInstancesLoop isHidden v rest).map (seg :: ·)

/-- Top-level `renderHiddenInstances`.  `hiddenInstances` is the optional
map keyed by instance id; truthiness of a stored value is a `Bool`. -/
def renderHiddenInstances (segs : List Seg)
    (hiddenInstances : Option (String → Bool)) : Option (List Seg) :=
  match hiddenInstances with
  | none => some segs
  | some isHidden => hiddenInstancesLoop isHidden ("hidden") segs

/-- Top-level `unrenderHiddenInstances`: same traversal, resetting
`style.visibility` to `""`. -/
def unrenderHiddenInstances (segs : List Seg)
    (hiddenInstances : Option (String → Bool)) : Option (List Seg) :=
  match hiddenInstances with
  | none => some segs
  | some isHidden => hiddenInstancesLoop isHidden ("") segs

/-- Top-level `renderSelectedInstance`.  All dereferences are guarded in the
source, so the function is total.  `instanceId` is falsy exactly when `""`. -/
def renderSelectedInstance (segs : List Seg) (instanceId : String) :
    List Seg :=
  if instanceId ≠ "" then
    segs.map fun seg =>
      match seg.eventRange.«instance», seg.el with
      | some inst, some el =>
          if inst.instanceId = instanceId then
            { seg with el := some (el.addClass ("fc-selected")) }
          else seg
      | _, _ => seg
  else
    segs

/-- Top-level `unrenderSelectedInstance`: under the same `instanceId`
truthiness guard, removes the class from every segment that has an `el`. -/
def unrenderSelectedInstance (segs : List Seg) (instanceId : String) :
    List Seg :=
  if instanceId ≠ "" then
    segs.map fun seg =>
      match seg.el with
      | some el => { seg with el := some (el.removeClass ("fc-selected")) }
      | none => seg
  else
    segs

/-- The comparison object built by `buildSegCompareObj`.  The source object
also spreads `eventDef.extendedProps` and `eventDef`; the fields written
after those spreads, which the claims and the sort use, are modelled. -/
structure SegCompareObj where
  id : String
  start : Int
  «end» : Int
  duration : Int
  allDay : Int
  _seg : Seg
  deriving DecidableEq, Repr

/-- `buildSegCompareObj`.  Dereferences `seg.eventRange.instance` without a
null check, hence `Option`-valued.  A present `Date` is always truthy, so
`range.start ? range.start.valueOf() : 0` is `getD 0` on the millisecond
option. -/
def buildSegCompareObj (seg : Seg) : Option SegCompareObj :=
  seg.eventRange.«instance».map fun inst =>
    let start := inst.range.start.getD 0
    let endMs := inst.range.«end».getD 0
    { id := seg.eventRange.«def».publicId
      start := start
      «end» := endMs
      duration := endMs - start
      allDay := if seg.eventRange.«def».allDay then 1 else 0
      _seg := seg }

/-- `sortEventSegs`.  `compareByFieldSpecs` applied to the fixed
`eventOrderSpecs` is the abstract comparator `cmp`; `Array.prototype.sort`
is a comparator sort, embedded as `List.mergeSort` on the non-positive
comparator relation. -/
def sortEventSegs (cmp : SegCompareObj → SegCompareObj → Int)
    (segs : List Seg) : Option (List Seg) :=
  (segs.mapM buildSegCompareObj).map fun objs =>
    (objs.mergeSort fun o0 o1 => decide (cmp o0 o1 ≤ 0)).map
      (fun c => c._seg)

/-- The per-renderer mutable state the sizing methods read and write. -/
structure RendererState where
  segs : List Seg
  isSizeDirty : Bool
  deriving DecidableEq, Repr

/-- The props of `renderSegs`. -/
structure FgProps where
  segs : List Seg
  mirrorInfo : Option MirrorInfo
  selectedInstanceId : String
  hiddenInstances : Option (String → Bool)

/-- `FgEventRenderer.renderSegs`.  The memoized option computation and the
subrenderer plumbing are framework glue; their data flow is kept: the plain
subrenderer (`_renderSegsPlain`, whose `renderSegEls` call is abstracted as
`renderSegsPlain`, returning the rendered subset) feeds the selected- and
hidden-instance subrenderers, the result is stored in `this.segs`, and
`isSizeDirty` is set. -/
def renderSegs (renderSegsPlain : List Seg → Option MirrorInfo → List Seg)
    (_st : RendererState) (props : FgProps) :
    Option (RendererState × List Seg) :=
  let segs := renderSegsPlain props.segs props.mirrorInfo
  let segs := renderSelectedInstance segs props.selectedInstanceId
  (renderHiddenInstances segs props.hiddenInstances).map fun segs =>
    ({ segs := segs, isSizeDirty := true }, segs)

/-- `FgEventRenderer.computeSizes`.  `computeSegSizes` is an abstract hook
that changes no renderer state; the returned `Bool` records whether it was
called. -/
def computeSizes (force : Bool) (st : RendererState) :
    Bool × RendererState :=
  if force || st.isSizeDirty then
    (true, st)
  else
    (false, st)

/-- `FgEventRenderer.assignSizes`.  `assignSegSizes` is an abstract hook;
the returned `Bool` records whether it was called.  `isSizeDirty` is
cleared unconditionally afterwards. -/
def assignSizes (force : Bool) (st : RendererState) :
    Bool × RendererState :=
  if force || st.isSizeDirty then
    (true, { st with isSizeDirty := false })
  else
    (false, { st with isSizeDirty := false })

/-- Opaque model of the `FullCalendarVDom` global: the bundle of bindings
(`Ref`, `VNode`, `createElement`, `render`, ...) that `vdom.ts` re-exports
as a unit. -/
structure VDomBindings where
  impl : Nat
  deriving DecidableEq, Repr

/-- Loading `src/packages/common/src/vdom.ts`: the module throws when the
global is undefined, and otherwise completes, its exports being the
global's bindings. -/
def vdomModule (globalVDom : Option VDomBindings) :
    Except String VDomBindings :=
  match globalVDom with
  | none => Except.error
      ("Please import the top-level fullcalendar lib before attempting to import a plugin.")
  | some lib => Except.ok lib

/-- Concrete fixture: a date environment with constant formatting output,
used only by witness theorems. -/
def fixtureEnv : DateEnv :=
  { format := fun _ _ _ => "7:00"
    formatRange := fun _ _ _ _ _ => "7:00 - 9:00" }

/-- Concrete fixture: an event instance. -/
def fixtureInst : EventInstance :=
  { instanceId := "inst1"
    range := { start := some 1000, «end» := some 2000 }
    forcedStartTzo := none
    forcedEndTzo := none }

/-- Concrete fixture: an all-day event render range. -/
def fixtureAllDayRange : EventRenderRange :=
  { «def» := { publicId := "ev1", allDay := true, hasEnd := true }
    «instance» := some fixtureInst
    ui := { classNames := [] } }

/-- Concrete fixture: a timed event render range without an end. -/
def fixtureTimedRange : EventRenderRange :=
  { «def» := { publicId := "ev2", allDay := false, hasEnd := false }
    «instance» := some fixtureInst
    ui := { classNames := [] } }

/-- Concrete fixture: a segment of the timed event. -/
def fixtureSeg : Seg :=
  { eventRange := fixtureTimedRange
    el := none
    isStart := true
    isEnd := true }

/-- Concrete fixture: a segment of the all-day event carrying a DOM
element. -/
def fixtureElSeg : Seg :=
  { eventRange := fixtureAllDayRange
    el := some { classList := [], style := { visibility := "" } }
    isStart := true
    isEnd := true }

/-- Concrete fixture: a segment without an instance whose element carries
the class `fc-selected`. -/
def fixtureSelectedSeg : Seg :=
  { eventRange :=
      { «def» := { publicId := "e1", allDay := false, hasEnd := true }
        «instance» := none
        ui := { classNames := [] } }
    el := some { classList := ["fc-selected"], style := { visibility := "" } }
    isStart := true
    isEnd := true }

/-- Concrete fixture: a segment whose `ui.classNames` contains the reserved
class name `fc-not-start`. -/
def fixtureClashSeg : Seg :=
  { eventRange :=
      { «def» := { publicId := "e2", allDay := false, hasEnd := true }
        «instance» := none
        ui := { classNames := ["fc-not-start"] } }
    el := none
    isStart := true
    isEnd := true }

/-- Specification-side description of the element assignment of
`renderSegEls`, following the claim's words: the i-th parsed element, when
non-null, becomes the `el` of the i-th segment, and every other segment is
unchanged.  To be compared with the source-side `assignEls`. -/
def assignElsSpec : List Seg → List (Option El) → List Seg
  | [], _ => []
  | segs, [] => segs
  | seg :: segs, none :: els => seg :: assignElsSpec segs els
  | seg :: segs, some el :: els =>
      { seg with el := some el } :: assignElsSpec segs els

/-- C1: `_getTimeText`, and hence `getTimeText`, returns a non-blank time
text only when the computed `displayEventTime` flag is true and `allDay` is
false; in every other case it returns the blank string `""` (for
`getTimeText`, whenever the call completes at all, i.e. on the instances the
`map` reaches). -/
theorem C1_blank_unless_time_displayed
    (dateEnv : DateEnv) (eventTimeFormat : DateFormatter)
    (displayEventTime displayEventEnd : Bool)
    (start «end» : Option DateMarker) (allDay : Bool)
    (formatter : Option DateFormatter) (displayEnd : Option Bool)
    (forcedStartTzo forcedEndTzo : Option Int)
    (eventRange : EventRenderRange)
    (h : ¬(displayEventTime = true ∧ allDay = false))
    (h' : ¬(displayEventTime = true ∧ eventRange.«def».allDay = false)) :
    _getTimeText dateEnv eventTimeFormat displayEventTime displayEventEnd
      start «end» allDay formatter displayEnd forcedStartTzo forcedEndTzo = ""
    ∧ getTimeText dateEnv eventTimeFormat displayEventTime displayEventEnd
        eventRange formatter displayEnd
      = eventRange.«instance».map (fun _ => "") := by
  have hb : (displayEventTime && !allDay) = false := by
    cases displayEventTime <;> cases allDay <;> simp_all
  have hb' : (displayEventTime && !eventRange.«def».allDay) = false := by
    cases displayEventTime <;> cases hc : eventRange.«def».allDay <;> simp_all
  constructor
  · simp [_getTimeText, hb]
  · cases hi : eventRange.«instance» with
    | none => simp [getTimeText, hi]
    | some inst => simp [getTimeText, hi, _getTimeText, hb']

/-- Witness for C1 at a concrete input: `displayEventTime` is false, so both
functions return blank. -/
theorem C1_witness :
    _getTimeText fixtureEnv ("fmt") false true (some 1000) (some 2000) false
      none none none none = ""
    ∧ getTimeText fixtureEnv ("fmt") false true fixtureTimedRange none none
      = fixtureTimedRange.«instance».map (fun _ => "") :=
  C1_blank_unless_time_displayed fixtureEnv ("fmt") false true
    (some 1000) (some 2000) false none none none none fixtureTimedRange
    (by decide) (by decide)

/-- C6: when time text is displayed (`displayEventTime` true, not all-day),
the text is the formatted range of start and end exactly when the effective
`displayEnd` flag is true and the end is non-null, and otherwise the single
formatted start; and `getTimeText` passes `null` as the end whenever the
definition's `hasEnd` is false, so such an event never renders a range. -/
theorem C6_range_vs_single_format
    (dateEnv : DateEnv) (eventTimeFormat : DateFormatter)
    (displayEventTime displayEventEnd : Bool)
    (start «end» : Option DateMarker) (allDay : Bool)
    (formatter : Option DateFormatter) (displayEnd : Option Bool)
    (forcedStartTzo forcedEndTzo : Option Int)
    (eventRange : EventRenderRange) (inst : EventInstance)
    (hT : displayEventTime = true) (hA : allDay = false) :
    (displayEnd.getD displayEventEnd = true ∧ «end» ≠ none →
      _getTimeText dateEnv eventTimeFormat displayEventTime displayEventEnd
        start «end» allDay formatter displayEnd forcedStartTzo forcedEndTzo
      = dateEnv.formatRange start «end» (formatter.getD eventTimeFormat)
          forcedStartTzo forcedEndTzo)
    ∧ (displayEnd.getD displayEventEnd = false ∨ «end» = none →
      _getTimeText dateEnv eventTimeFormat displayEventTime displayEventEnd
        start «end» allDay formatter displayEnd forcedStartTzo forcedEndTzo
      = dateEnv.format start (formatter.getD eventTimeFormat) forcedStartTzo)
    ∧ (eventRange.«def».hasEnd = false → eventRange.«def».allDay = false →
        eventRange.«instance» = some inst →
      getTimeText dateEnv eventTimeFormat displayEventTime displayEventEnd
        eventRange formatter displayEnd
      = some (dateEnv.format inst.range.start (formatter.getD eventTimeFormat)
          inst.forcedStartTzo)) := by
  subst hT; subst hA
  refine ⟨?_, ?_, ?_⟩
  · rintro ⟨hde, hend⟩
    have hs : «end».isSome = true := Option.isSome_iff_ne_none.mpr hend
    simp [_getTimeText, hde, hs]
  · intro hcase
    rcases hcase with hde | hend
    · simp [_getTimeText, hde]
    · subst hend
      simp [_getTimeText]
  · intro hHE hAD hi
    simp [getTimeText, hi, hHE, _getTimeText, hAD]

/-- Witness for C6 at a concrete input: effective `displayEnd` true and a
non-null end give the formatted range. -/
theorem C6_witness :
    _getTimeText fixtureEnv ("fmt") true true (some 1000) (some 2000) false
      none none none none = "7:00 - 9:00" :=
  (C6_range_vs_single_format fixtureEnv ("fmt") true true (some 1000)
      (some 2000) false none none none none fixtureTimedRange fixtureInst
      rfl rfl).1 (by simp)

/-- C7: loading the common vdom module throws the "please import the
top-level fullcalendar lib" error exactly when the global `FullCalendarVDom`
is undefined; when it is defined the module completes and re-exports the
global's bindings. -/
theorem C7_vdom_guard (g : Option VDomBindings) :
    (vdomModule g = Except.error
        ("Please import the top-level fullcalendar lib before attempting to import a plugin.")
      ↔ g = none)
    ∧ ∀ v, g = some v → vdomModule g = Except.ok v := by
  cases g <;> simp [vdomModule]

/-- Witness for C7 at a concrete input: a defined global is re-exported. -/
theorem C7_witness : vdomModule (some ⟨0⟩) = Except.ok ⟨0⟩ :=
  (C7_vdom_guard (some ⟨0⟩)).2 ⟨0⟩ rfl

/-- C9: `renderSegs` always sets `isSizeDirty`; `computeSizes` calls the
`computeSegSizes` hook iff `force` or `isSizeDirty` and changes no state;
`assignSizes` calls the `assignSegSizes` hook iff `force` or `isSizeDirty`
and always leaves `isSizeDirty` false (while not touching `segs`). -/
theorem C9_size_dirty_flag :
    (∀ renderSegsPlain st props r,
      renderSegs renderSegsPlain st props = some r → r.1.isSizeDirty = true)
    ∧ (∀ force st, (computeSizes force st).1 = (force || st.isSizeDirty)
        ∧ (computeSizes force st).2 = st)
    ∧ (∀ force st, (assignSizes force st).1 = (force || st.isSizeDirty)
        ∧ (assignSizes force st).2.isSizeDirty = false
        ∧ (assignSizes force st).2.segs = st.segs) := by
  refine ⟨?_, ?_, ?_⟩
  · intro rsp st props r h
    unfold renderSegs at h
    rw [Option.map_eq_some'] at h
    obtain ⟨a, _, ha⟩ := h
    rw [← ha]
  · intro force st
    cases force <;> cases h : st.isSizeDirty <;> simp [computeSizes, h]
  · intro force st
    cases force <;> cases h : st.isSizeDirty <;> simp [assignSizes, h]

/-- Witness for C9 at a concrete input: a completed `renderSegs` run leaves
the dirty flag set. -/
theorem C9_witness :
    ({ segs := [], isSizeDirty := true } : RendererState).isSizeDirty = true :=
  C9_size_dirty_flag.1 (fun s _ => s)
    { segs := [], isSizeDirty := false }
    { segs := [], mirrorInfo := none, selectedInstanceId := "",
      hiddenInstances := none }
    ({ segs := [], isSizeDirty := true }, []) rfl

/-- C10: `buildSegCompareObj` yields the millisecond endpoints (missing
endpoint as 0), `duration` is end minus start, `allDay` is the 0/1 coercion
of the definition flag, `id` is the `publicId`, and `_seg` is the input
segment. -/
theorem C10_buildSegCompareObj (seg : Seg) (inst : EventInstance)
    (h : seg.eventRange.«instance» = some inst) :
    (buildSegCompareObj seg).map SegCompareObj.start
        = some (inst.range.start.getD 0)
    ∧ (buildSegCompareObj seg).map SegCompareObj.«end»
        = some (inst.range.«end».getD 0)
    ∧ (buildSegCompareObj seg).map (fun o => o.duration)
        = some (inst.range.«end».getD 0 - inst.range.start.getD 0)
    ∧ (buildSegCompareObj seg).map (fun o => o.allDay)
        = some (if seg.eventRange.«def».allDay then 1 else 0)
    ∧ (buildSegCompareObj seg).map SegCompareObj.id
        = some seg.eventRange.«def».publicId
    ∧ (buildSegCompareObj seg).map (fun o => o._seg) = some seg := by
  simp [buildSegCompareObj, h]

/-- Witness for C10 at a concrete input. -/
theorem C10_witness :
    (buildSegCompareObj fixtureSeg).map SegCompareObj.start = some 1000
    ∧ (buildSegCompareObj fixtureSeg).map SegCompareObj.«end» = some 2000
    ∧ (buildSegCompareObj fixtureSeg).map (fun o => o.duration) = some 1000
    ∧ (buildSegCompareObj fixtureSeg).map (fun o => o.allDay) = some 0
    ∧ (buildSegCompareObj fixtureSeg).map SegCompareObj.id = some ("ev2")
    ∧ (buildSegCompareObj fixtureSeg).map (fun o => o._seg) = some fixtureSeg :=
  C10_buildSegCompareObj fixtureSeg fixtureInst rfl

/-- C4 (amended): with a truthy `instanceId`, `renderSelectedInstance` adds
`fc-selected` to exactly the segments that have an instance with that id
and a non-null `el`; with a falsy `instanceId` neither function modifies a
segment; and with a truthy `instanceId`, `unrenderSelectedInstance` removes
`fc-selected` from every segment that has an `el`. -/
theorem C4_selected_instance_classes (segs : List Seg) (instanceId : String) :
    (instanceId = "" →
      renderSelectedInstance segs instanceId = segs
      ∧ unrenderSelectedInstance segs instanceId = segs)
    ∧ (instanceId ≠ "" →
      renderSelectedInstance segs instanceId
        = segs.map (fun seg =>
            if seg.eventRange.«instance».any
                  (fun inst => inst.instanceId == instanceId)
                && seg.el.isSome then
              { seg with
                el := seg.el.map (fun el => el.addClass ("fc-selected")) }
            else seg)
      ∧ unrenderSelectedInstance segs instanceId
        = segs.map (fun seg =>
            { seg with
              el := seg.el.map (fun el => el.removeClass ("fc-selected")) })
      ∧ ∀ seg ∈ unrenderSelectedInstance segs instanceId, ∀ el,
          seg.el = some el → "fc-selected" ∉ el.classList) := by
  constructor
  · intro h
    subst h
    exact ⟨by simp [renderSelectedInstance], by simp [unrenderSelectedInstance]⟩
  · intro h
    have hr : renderSelectedInstance segs instanceId
        = segs.map (fun seg =>
            if seg.eventRange.«instance».any
                  (fun inst => inst.instanceId == instanceId)
                && seg.el.isSome then
              { seg with
                el := seg.el.map (fun el => el.addClass ("fc-selected")) }
            else seg) := by
      rw [renderSelectedInstance, if_pos h]
      refine List.map_congr_left (fun seg _ => ?_)
      rcases hi : seg.eventRange.«instance» with _ | inst
        <;> rcases hel : seg.el with _ | el <;> simp [hi, hel]
    have hu : unrenderSelectedInstance segs instanceId
        = segs.map (fun seg =>
            { seg with
              el := seg.el.map (fun el => el.removeClass ("fc-selected")) }) := by
      rw [unrenderSelectedInstance, if_pos h]
      refine List.map_congr_left (fun seg _ => ?_)
      cases seg with
      | mk er el s e => rcases el with _ | el <;> simp
    refine ⟨hr, hu, ?_⟩
    intro seg hm el hel
    rw [hu] at hm
    rcases List.mem_map.mp hm with ⟨seg0, _, rfl⟩
    rcases hel0 : seg0.el with _ | el0
    · simp [hel0] at hel
    · rw [hel0] at hel
      simp only [Option.map_some'] at hel
      cases hel
      simp [El.removeClass]

/-- Counterexample for C4 as stated: with the falsy `instanceId` `""`,
`unrenderSelectedInstance` leaves a segment that has an `el` carrying
`fc-selected` completely unchanged, so it does not remove the class from
every segment that has an `el`. -/
theorem C4_counterexample :
    unrenderSelectedInstance [fixtureSelectedSeg] "" = [fixtureSelectedSeg]
    ∧ fixtureSelectedSeg.el
      = some { classList := ["fc-selected"], style := { visibility := "" } } := by
  decide

/-- Witness for C4 at a concrete input: a falsy id modifies nothing. -/
theorem C4_witness : renderSelectedInstance [fixtureSeg] "" = [fixtureSeg] :=
  ((C4_selected_instance_classes [fixtureSeg] "").1 rfl).1

/-- C5: with a present `hiddenInstances` map (and, as the source assumes,
an instance on every segment and an element on every hidden one),
`renderHiddenInstances` sets `style.visibility` to `hidden` on exactly the
segments whose instance id maps to a truthy value, leaving every other
segment untouched; `unrenderHiddenInstances` resets the same set to `""`;
with an absent map neither function modifies anything. -/
theorem C5_hidden_instances (segs : List Seg) (isHidden : String → Bool)
    (h : ∀ seg ∈ segs,
      seg.eventRange.«instance».any
        (fun inst => !isHidden inst.instanceId || seg.el.isSome) = true) :
    renderHiddenInstances segs none = some segs
    ∧ unrenderHiddenInstances segs none = some segs
    ∧ renderHiddenInstances segs (some isHidden)
      = some (segs.map fun seg =>
          if seg.eventRange.«instance».any
              (fun inst => isHidden inst.instanceId) then
            { seg with
              el := seg.el.map (fun el => el.setVisibility ("hidden")) }
          else seg)
    ∧ unrenderHiddenInstances segs (some isHidden)
      = some (segs.map fun seg =>
          if seg.eventRange.«instance».any
              (fun inst => isHidden inst.instanceId) then
            { seg with el := seg.el.map (fun el => el.setVisibility ("")) }
          else seg) := by
  have key : ∀ v : String, hiddenInstancesLoop isHidden v segs
      = some (segs.map fun seg =>
          if seg.eventRange.«instance».any
              (fun inst => isHidden inst.instanceId) then
            { seg with el := seg.el.map (fun el => el.setVisibility v) }
          else seg) := by
    intro v
    induction segs with
    | nil => rfl
    | cons s rest ih =>
      have hs := h s (by simp)
      have hrest := ih (fun seg hm => h seg (by simp [hm]))
      rcases hi : s.eventRange.«instance» with _ | inst
      · rw [hi] at hs; simp at hs
      · rw [hi] at hs
        simp only [Option.any_some] at hs
        by_cases hf : isHidden inst.instanceId
        · have hel : s.el.isSome = true := by
            rw [hf] at hs; simpa using hs
          rcases hel0 : s.el with _ | el0
          · rw [hel0] at hel; simp at hel
          · simp [hiddenInstancesLoop, hi, hf, hel0, hrest, Option.any_some]
        · simp [hiddenInstancesLoop, hi, hf, hrest, Option.any_some]
  exact ⟨rfl, rfl, key ("hidden"), key ("")⟩

/-- Witness for C5 at a concrete input: the one hidden instance gets
`visibility: hidden`. -/
theorem C5_witness :
    renderHiddenInstances [fixtureElSeg] (some (fun s => s == "inst1"))
      = some [{ fixtureElSeg with
          el := some { classList := [], style := { visibility := "hidden" } } }] := by
  have h := C5_hidden_instances [fixtureElSeg] (fun s => s == "inst1")
    (by decide)
  exact h.2.2.1.trans (by decide)

/-- `getSegClasses` written as one concatenation of its constituent
groups. -/
theorem getSegClasses_concat (seg : Seg) (d r : Bool)
    (mi : Option MirrorInfo) :
    getSegClasses seg d r mi
    = ["fc-event",
        if seg.isStart then ("fc-start") else ("fc-not-start"),
        if seg.isEnd then ("fc-end") else ("fc-not-end")]
      ++ seg.eventRange.ui.classNames
      ++ (if d then ["fc-draggable"] else [])
      ++ (if r then ["fc-resizable"] else [])
      ++ (match mi with
          | none => []
          | some m => ["fc-mirror"]
              ++ (if m.isDragging then ["fc-dragging"] else [])
              ++ (if m.isResizing then ["fc-resizing"] else [])) := by
  rcases mi with _ | ⟨md, mr⟩
  · cases d <;> cases r <;> simp [getSegClasses]
  · cases d <;> cases r <;> cases md <;> cases mr <;> simp [getSegClasses]

/-- C8 (amended): provided `ui.classNames` contains none of the reserved
renderer class names, the list returned by `getSegClasses` contains
`fc-event`; contains `fc-start` / `fc-not-start` according to `seg.isStart`
and `fc-end` / `fc-not-end` according to `seg.isEnd`; contains
`fc-draggable` iff `isDraggable`, `fc-resizable` iff `isResizable`,
`fc-mirror` iff `mirrorInfo` is present, and `fc-dragging` / `fc-resizing`
iff the corresponding `mirrorInfo` flags are set. -/
theorem C8_seg_classes (seg : Seg) (isDraggable isResizable : Bool)
    (mirrorInfo : Option MirrorInfo)
    (h : ∀ c ∈ seg.eventRange.ui.classNames,
      c ∉ ["fc-event", "fc-start", "fc-not-start", "fc-end", "fc-not-end",
           "fc-draggable", "fc-resizable", "fc-mirror", "fc-dragging",
           "fc-resizing"]) :
    "fc-event" ∈ getSegClasses seg isDraggable isResizable mirrorInfo
    ∧ ("fc-start" ∈ getSegClasses seg isDraggable isResizable mirrorInfo
        ↔ seg.isStart = true)
    ∧ ("fc-not-start" ∈ getSegClasses seg isDraggable isResizable mirrorInfo
        ↔ seg.isStart = false)
    ∧ ("fc-end" ∈ getSegClasses seg isDraggable isResizable mirrorInfo
        ↔ seg.isEnd = true)
    ∧ ("fc-not-end" ∈ getSegClasses seg isDraggable isResizable mirrorInfo
        ↔ seg.isEnd = false)
    ∧ ("fc-draggable" ∈ getSegClasses seg isDraggable isResizable mirrorInfo
        ↔ isDraggable = true)
    ∧ ("fc-resizable" ∈ getSegClasses seg isDraggable isResizable mirrorInfo
        ↔ isResizable = true)
    ∧ ("fc-mirror" ∈ getSegClasses seg isDraggable isResizable mirrorInfo
        ↔ mirrorInfo.isSome = true)
    ∧ ("fc-dragging" ∈ getSegClasses seg isDraggable isResizable mirrorInfo
        ↔ ∃ mi, mirrorInfo = some mi ∧ mi.isDragging = true)
    ∧ ("fc-resizing" ∈ getSegClasses seg isDraggable isResizable mirrorInfo
        ↔ ∃ mi, mirrorInfo = some mi ∧ mi.isResizing = true) := by
  have h1 : "fc-start" ∉ seg.eventRange.ui.classNames :=
    fun hc => (h _ hc) (by decide)
  have h2 : "fc-not-start" ∉ seg.eventRange.ui.classNames :=
    fun hc => (h _ hc) (by decide)
  have h3 : "fc-end" ∉ seg.eventRange.ui.classNames :=
    fun hc => (h _ hc) (by decide)
  have h4 : "fc-not-end" ∉ seg.eventRange.ui.classNames :=
    fun hc => (h _ hc) (by decide)
  have h5 : "fc-draggable" ∉ seg.eventRange.ui.classNames :=
    fun hc => (h _ hc) (by decide)
  have h6 : "fc-resizable" ∉ seg.eventRange.ui.classNames :=
    fun hc => (h _ hc) (by decide)
  have h7 : "fc-mirror" ∉ seg.eventRange.ui.classNames :=
    fun hc => (h _ hc) (by decide)
  have h8 : "fc-dragging" ∉ seg.eventRange.ui.classNames :=
    fun hc => (h _ hc) (by decide)
  have h9 : "fc-resizing" ∉ seg.eventRange.ui.classNames :=
    fun hc => (h _ hc) (by decide)
  clear h
  rw [getSegClasses_concat]
  rcases mirrorInfo with _ | ⟨mid, mir⟩
  · cases hS : seg.isStart <;> cases hE : seg.isEnd
      <;> cases isDraggable <;> cases isResizable
      <;> simp [h1, h2, h3, h4, h5, h6, h7, h8, h9]
  · cases hS : seg.isStart <;> cases hE : seg.isEnd
      <;> cases isDraggable <;> cases isResizable
      <;> cases mid <;> cases mir
      <;> simp [h1, h2, h3, h4, h5, h6, h7, h8, h9]

/-- Counterexample for C8 as stated: a segment whose `ui.classNames`
contains `fc-not-start` yields a class list containing both `fc-start` and
`fc-not-start`, so the list does not contain exactly one of the two. -/
theorem C8_counterexample :
    "fc-start" ∈ getSegClasses fixtureClashSeg false false none
    ∧ "fc-not-start" ∈ getSegClasses fixtureClashSeg false false none := by
  decide

/-- Witness for C8 at a concrete input. -/
theorem C8_witness :
    "fc-event" ∈ getSegClasses fixtureSeg true false (some ⟨true, false⟩)
    ∧ ("fc-draggable" ∈ getSegClasses fixtureSeg true false (some ⟨true, false⟩)
        ↔ true = true) := by
  have h := C8_seg_classes fixtureSeg true false (some ⟨true, false⟩) (by decide)
  exact ⟨h.1, h.2.2.2.2.2.1⟩

/-- Folding string concatenation equals prepending to `String.join`. -/
theorem string_foldl_append (l : List String) (init : String) :
    List.foldl (fun acc s => acc ++ s) init l = init ++ String.join l := by
  induction l generalizing init with
  | nil => simp [String.join]
  | cons a l ih =>
    have hj : String.join (a :: l) = a ++ String.join l := by
      show List.foldl (fun acc s => acc ++ s) "" (a :: l) = a ++ String.join l
      rw [List.foldl_cons, ih]
      simp
    rw [List.foldl_cons, ih, hj, String.append_assoc]

/-- The html accumulation loop of `renderSegEls` concatenates the per-seg
html in input order. -/
theorem html_foldl_eq_join (f : Seg → String) (l : List Seg) :
    List.foldl (fun acc s => acc ++ f s) "" l = String.join (l.map f) := by
  rw [← List.foldl_map, string_foldl_append]
  simp

/-- When there are no more parsed elements than segments, the source-side
element assignment agrees with the specification-side one. -/
theorem assignEls_eq_spec : ∀ (segs : List Seg) (els : List (Option El)),
    els.length ≤ segs.length →
    assignEls segs els = some (assignElsSpec segs els) := by
  intro segs els
  induction els generalizing segs with
  | nil =>
    intro _
    cases segs <;> rfl
  | cons e els ih =>
    intro h
    cases segs with
    | nil => simp at h
    | cons s segs =>
      have h' : els.length ≤ segs.length := by simpa using h
      cases e with
      | none => simp [assignEls, assignElsSpec, ih segs h']
      | some el => simp [assignEls, assignElsSpec, ih segs h']

/-- C2: for a non-empty segment list (with at most as many parsed elements
as segments, the source's tacit assumption), `renderSegEls` concatenates
`renderSegHtml` of each segment in input order, parses the string, assigns
the i-th non-null parsed element as the `el` of the i-th segment, and
returns the `filterSegsViaEls` subset; an empty list is returned unchanged
without building html. -/
theorem C2_renderSegEls (renderSegHtml : Seg → String)
    (htmlToElements : String → List (Option El))
    (filterSegsViaEls : List Seg → List Seg) (segs : List Seg) :
    (segs = [] →
      renderSegEls renderSegHtml htmlToElements filterSegsViaEls segs
        = some segs)
    ∧ (segs ≠ [] →
      (htmlToElements (String.join (segs.map renderSegHtml))).length
          ≤ segs.length →
      renderSegEls renderSegHtml htmlToElements filterSegsViaEls segs
        = some (filterSegsViaEls (assignElsSpec segs
            (htmlToElements (String.join (segs.map renderSegHtml)))))) := by
  constructor
  · rintro rfl
    rfl
  · intro h hlen
    have hne : segs.length ≠ 0 := by simpa [List.length_eq_zero] using h
    simp only [renderSegEls, if_pos hne, html_foldl_eq_join]
    rw [assignEls_eq_spec segs _ hlen, Option.map_some']

/-- Witness for C2 at a concrete input: one segment, one parsed element. -/
theorem C2_witness :
    renderSegEls (fun _ => "<a></a>")
      (fun _ => [some { classList := [], style := { visibility := "" } }])
      (fun l => l) [fixtureSeg]
    = some [{ fixtureSeg with
        el := some { classList := [], style := { visibility := "" } } }] := by
  have h := (C2_renderSegEls (fun _ => "<a></a>")
    (fun _ => [some { classList := [], style := { visibility := "" } }])
    (fun l => l) [fixtureSeg]).2 (by decide) (by decide)
  exact h.trans (by decide)

/-- A successful `buildSegCompareObj` stores the input segment in `_seg`
and is reproducible from that stored segment. -/
theorem build_seg_roundtrip {seg : Seg} {o : SegCompareObj}
    (h : buildSegCompareObj seg = some o) :
    o._seg = seg ∧ buildSegCompareObj o._seg = some o := by
  cases hi : seg.eventRange.«instance» with
  | none => rw [buildSegCompareObj, hi] at h; simp at h
  | some inst =>
    rw [buildSegCompareObj, hi] at h
    simp only [Option.map_some'] at h
    obtain rfl := Option.some_inj.mp h
    refine ⟨rfl, ?_⟩
    show buildSegCompareObj seg = _
    rw [buildSegCompareObj, hi]
    rfl

/-- A successful `map(buildSegCompareObj)` pass maps back to the input via
`_seg`, and every produced object is reproducible from its `_seg`. -/
theorem mapM_build_facts : ∀ (segs : List Seg) (objs : List SegCompareObj),
    segs.mapM buildSegCompareObj = some objs →
    objs.map (fun o => o._seg) = segs
    ∧ ∀ o ∈ objs, buildSegCompareObj o._seg = some o := by
  intro segs
  induction segs with
  | nil =>
    intro objs h
    rw [List.mapM_nil] at h
    obtain rfl := Option.some_inj.mp h.symm
    simp
  | cons s rest ih =>
    intro objs h
    rw [List.mapM_cons] at h
    cases hb : buildSegCompareObj s with
    | none => rw [hb] at h; simp at h
    | some o0 =>
      rw [hb] at h
      cases hr : rest.mapM buildSegCompareObj with
      | none => rw [hr] at h; simp at h
      | some os =>
        rw [hr] at h
        simp only [Option.bind_some, Option.pure_def] at h
        obtain rfl := Option.some_inj.mp h
        obtain ⟨hmap, hmem⟩ := ih os hr
        obtain ⟨hseg, hrt⟩ := build_seg_roundtrip hb
        refine ⟨?_, ?_⟩
        · simp [hmap, hseg]
        · intro o ho
          rcases List.mem_cons.mp ho with rfl | ho'
          · exact hrt
          · exact hmem o ho'

/-- C3: a completed `sortEventSegs` run returns a permutation of the input
segments, ordered by the comparator over the compare objects (for a
consistent comparator, i.e. one whose non-positive relation is transitive
and total, as `Array.prototype.sort` itself requires). -/
theorem C3_sortEventSegs (cmp : SegCompareObj → SegCompareObj → Int)
    (segs l : List Seg)
    (htrans : ∀ a b c, cmp a b ≤ 0 → cmp b c ≤ 0 → cmp a c ≤ 0)
    (htotal : ∀ a b, cmp a b ≤ 0 ∨ cmp b a ≤ 0)
    (hres : sortEventSegs cmp segs = some l) :
    l.Perm segs
    ∧ l.Pairwise (fun s0 s1 => ∀ o0 o1,
        buildSegCompareObj s0 = some o0 → buildSegCompareObj s1 = some o1 →
        cmp o0 o1 ≤ 0) := by
  rw [sortEventSegs, Option.map_eq_some'] at hres
  obtain ⟨objs, hobjs, hl⟩ := hres
  obtain ⟨hmap, hmem⟩ := mapM_build_facts segs objs hobjs
  subst hl
  constructor
  · have hp := (List.mergeSort_perm objs
      (fun o0 o1 => decide (cmp o0 o1 ≤ 0))).map (fun o => o._seg)
    rw [hmap] at hp
    exact hp
  · have hsorted : ((objs.mergeSort
        (fun o0 o1 => decide (cmp o0 o1 ≤ 0)))).Pairwise
        (fun a b => decide (cmp a b ≤ 0) = true) :=
      List.sorted_mergeSort
        (fun a b c hab hbc => by
          simp only [decide_eq_true_eq] at hab hbc ⊢
          exact htrans a b c hab hbc)
        (fun a b => by
          rcases htotal a b with h | h <;> simp [h])
        objs
    refine List.pairwise_map.mpr ?_
    refine hsorted.imp_of_mem ?_
    intro a b ha hb hab o0 o1 h0 h1
    have e0 := hmem a (List.mem_mergeSort.mp ha)
    have e1 := hmem b (List.mem_mergeSort.mp hb)
    rw [e0] at h0
    rw [e1] at h1
    obtain rfl := Option.some_inj.mp h0
    obtain rfl := Option.some_inj.mp h1
    exact of_decide_eq_true hab

/-- Witness for C3 at a concrete input: a singleton list under the constant
comparator. -/
theorem C3_witness :
    List.Perm [fixtureSeg] [fixtureSeg]
    ∧ List.Pairwise (fun s0 s1 => ∀ o0 o1,
        buildSegCompareObj s0 = some o0 → buildSegCompareObj s1 = some o1 →
        (0 : Int) ≤ 0) [fixtureSeg] :=
  C3_sortEventSegs (fun _ _ => 0) [fixtureSeg] [fixtureSeg]
    (fun _ _ _ h _ => h) (fun _ _ => Or.inl (Int.le_refl 0))
    (by
      have h1 : List.mapM buildSegCompareObj [fixtureSeg]
          = some [{ id := "ev2", start := 1000, «end» := 2000,
                    duration := 1000, allDay := 0, _seg := fixtureSeg }] := by
        decide
      rw [sortEventSegs, h1]
      simp [List.mergeSort_singleton])
